import Mathlib

/-!
Shallow embedding of `src/convlstm.py` (a ConvLSTM cell and its sequence
runner) and proofs of the specification claims about it.

Modelling conventions:
* Scalars are `ℚ` (exact arithmetic stand-in for the tensor backend's
  floating point numbers, which are out of scope per the spec).
* A 4-d tensor (batch, channels, height, width) is a `Tensor4`: explicit
  dimension fields plus a total data function; a 5-d tensor likewise.
* `torch.sigmoid`, `torch.tanh`, `nn.BatchNorm2d` and `nn.LayerNorm` are
  primitives of the numeric backend (spec section 6 lists them as external
  collaborators), so they are fields of a `Backend` parameter.
* `nn.Dropout` is stochastic; its randomness is made explicit as a boolean
  keep-mask argument.  A rate-0 dropout is the identity, as in the source
  library; otherwise kept entries are rescaled by `1/(1-p)`.
-/

namespace Convlstm

/-- Boolean keep-mask for one dropout draw, indexed like a 4-d tensor. -/
abbrev Mask := ℕ → ℕ → ℕ → ℕ → Bool

/-- A 4-d tensor (batch, channels, height, width) over exact rationals. -/
@[ext]
structure Tensor4 where
  batch : ℕ
  channels : ℕ
  height : ℕ
  width : ℕ
  data : ℕ → ℕ → ℕ → ℕ → ℚ

/-- Elementwise addition; dimension fields are those of the left operand
(the source only adds tensors of identical shape). -/
instance : Add Tensor4 :=
  ⟨fun a b => ⟨a.batch, a.channels, a.height, a.width,
    fun i j k l => a.data i j k l + b.data i j k l⟩⟩

/-- Elementwise (Hadamard) product, as `*` on torch tensors. -/
instance : Mul Tensor4 :=
  ⟨fun a b => ⟨a.batch, a.channels, a.height, a.width,
    fun i j k l => a.data i j k l * b.data i j k l⟩⟩

/-- Elementwise application of a scalar function (for example
`torch.sigmoid`, `torch.tanh`). -/
def tmap (f : ℚ → ℚ) (a : Tensor4) : Tensor4 :=
  ⟨a.batch, a.channels, a.height, a.width, fun b c i j => f (a.data b c i j)⟩

/-- The dimension quadruple of a tensor. -/
def dims4 (a : Tensor4) : ℕ × ℕ × ℕ × ℕ := (a.batch, a.channels, a.height, a.width)

/-- Sum of `f 0 + ... + f (n-1)`, by structural recursion (kernel-reducible). -/
def sumRange (f : ℕ → ℚ) : ℕ → ℚ
  | 0 => 0
  | n + 1 => sumRange f n + f n

/-- Value of `sumRange` at 0. -/
theorem sumRange_zero (f : ℕ → ℚ) : sumRange f 0 = 0 := rfl

/-- Unfolding lemma for `sumRange`. -/
theorem sumRange_succ (f : ℕ → ℚ) (n : ℕ) : sumRange f n.succ = sumRange f n + f n := rfl

/-- Value of `sumRange` at 1 (the counterexample configurations all use
single-channel 1x1 kernels). -/
@[simp]
theorem sumRange_one (f : ℕ → ℚ) : sumRange f 1 = f 0 := by
  have h : sumRange f 1 = sumRange f 0 + f 0 := rfl
  simp [h, sumRange_zero]

/-- Zero-padded read of a tensor: position `(r, s)` of the input padded by
`ph`/`pw` zeros on each border. -/
def padAt (x : Tensor4) (ph pw : ℕ) (b c r s : ℕ) : ℚ :=
  if ph ≤ r ∧ pw ≤ s ∧ r - ph < x.height ∧ s - pw < x.width then
    x.data b c (r - ph) (s - pw)
  else 0

/-- `nn.Conv2d` with weights `w`, bias vector `bv` (added only when
`useBias`), `outC` output channels, kernel `(kh, kw)`, stride `(sh, sw)` and
zero padding `(ph, pw)`.  Output spatial size is the usual
`(H + 2*ph - kh)/sh + 1` (floor division). -/
def conv2d (w : ℕ → ℕ → ℕ → ℕ → ℚ) (bv : ℕ → ℚ) (useBias : Bool)
    (outC kh kw sh sw ph pw : ℕ) (x : Tensor4) : Tensor4 :=
  ⟨x.batch, outC, (x.height + 2 * ph - kh) / sh + 1, (x.width + 2 * pw - kw) / sw + 1,
    fun b co i j =>
      (if useBias then bv co else 0) +
        sumRange (fun ci => sumRange (fun u => sumRange (fun v =>
          w co ci u v * padAt x ph pw b ci (i * sh + u) (j * sw + v)) kw) kh) x.channels⟩

/-- `nn.Dropout p` applied with an explicit keep-mask `m`: rate 0 is the
identity; otherwise kept entries are rescaled by `1/(1-p)` and dropped
entries become 0 (inverted dropout, as in the backend library). -/
def applyDropout (p : ℚ) (m : Mask) (x : Tensor4) : Tensor4 :=
  ⟨x.batch, x.channels, x.height, x.width, fun b c i j =>
    if p = 0 then x.data b c i j
    else if m b c i j then x.data b c i j / (1 - p) else 0⟩

/-- The backend primitives the cell delegates to (spec section 6): scalar
sigmoid/tanh applied elementwise, and the two normalization modules
`batch_norm_2d`, `layer_norm_x`, `layer_norm_h` built in `__init__`. -/
structure Backend where
  sigmoid : ℚ → ℚ
  tanh : ℚ → ℚ
  batchNorm2d : Tensor4 → Tensor4
  layerNormX : Tensor4 → Tensor4
  layerNormH : Tensor4 → Tensor4

/-- `ConvLSTMCell.__init__`: configuration and learned parameters of the
cell.  `convW`/`convB` are the weights and bias of `self.conv`;
`rnnW`/`rnnB` those of `self.rnn_conv`. -/
structure ConvLSTMCell where
  input_dim : ℕ
  hidden_dim : ℕ
  kh : ℕ
  kw : ℕ
  sh : ℕ
  sw : ℕ
  ph : ℕ
  pw : ℕ
  cnn_dropout : ℚ
  rnn_dropout : ℚ
  bias : Bool
  peephole : Bool
  batch_norm : Bool
  layer_norm : Bool
  convW : ℕ → ℕ → ℕ → ℕ → ℚ
  convB : ℕ → ℚ
  rnnW : ℕ → ℕ → ℕ → ℕ → ℚ
  rnnB : ℕ → ℚ

/-- `self.conv`: input convolution with the configured kernel, stride and
padding, producing `hidden_dim` channels. -/
def ConvLSTMCell.convInput (cell : ConvLSTMCell) (x : Tensor4) : Tensor4 :=
  conv2d cell.convW cell.convB cell.bias cell.hidden_dim
    cell.kh cell.kw cell.sh cell.sw cell.ph cell.pw x

/-- `self.rnn_conv`: recurrent convolution, stride 1 (the `nn.Conv2d`
default) and shape-preserving padding `(kh/2, kw/2)` (floor). -/
def ConvLSTMCell.rnnConv (cell : ConvLSTMCell) (x : Tensor4) : Tensor4 :=
  conv2d cell.rnnW cell.rnnB cell.bias cell.hidden_dim
    cell.kh cell.kw 1 1 (cell.kh / 2) (cell.kw / 2) x

/-- One call's dropout draws: the mask for `self.cnn_dropout(input_tensor)`
and the two independent masks for `self.rnn_dropout(h_cur)` and
`self.rnn_dropout(c_cur)`. -/
structure StepMasks where
  mx : Mask
  mh : Mask
  mc : Mask

/-- Line 73: `x = self.cnn_dropout(input_tensor)`. -/
def xDrop (cell : ConvLSTMCell) (ms : StepMasks) (input_tensor : Tensor4) : Tensor4 :=
  applyDropout cell.cnn_dropout ms.mx input_tensor

/-- Line 85: `h = self.rnn_dropout(h_cur)`. -/
def hDrop (cell : ConvLSTMCell) (ms : StepMasks) (h_cur : Tensor4) : Tensor4 :=
  applyDropout cell.rnn_dropout ms.mh h_cur

/-- Line 91: `c = self.rnn_dropout(c_cur)`. -/
def cDrop (cell : ConvLSTMCell) (ms : StepMasks) (c_cur : Tensor4) : Tensor4 :=
  applyDropout cell.rnn_dropout ms.mc c_cur

/-- Lines 79-83: the batch-norm stage applied to an `x_*` map when
`self.batch_norm` is set, else the identity. -/
def bnX (be : Backend) (cell : ConvLSTMCell) (t : Tensor4) : Tensor4 :=
  if cell.batch_norm then be.batchNorm2d t else t

/-- Lines 97-101: the layer-norm stage for the `x_*` maps. -/
def lnX (be : Backend) (cell : ConvLSTMCell) (t : Tensor4) : Tensor4 :=
  if cell.layer_norm then be.layerNormX t else t

/-- Lines 102-105: the layer-norm stage for the `h_*` maps. -/
def lnH (be : Backend) (cell : ConvLSTMCell) (t : Tensor4) : Tensor4 :=
  if cell.layer_norm then be.layerNormH t else t

/-- Line 74 `x_i = self.conv(x)` followed by its normalization stages. -/
def x_i (be : Backend) (cell : ConvLSTMCell) (ms : StepMasks) (input_tensor : Tensor4) :
    Tensor4 :=
  lnX be cell (bnX be cell (cell.convInput (xDrop cell ms input_tensor)))

/-- Line 75 `x_f = self.conv(x)` followed by its normalization stages. -/
def x_f (be : Backend) (cell : ConvLSTMCell) (ms : StepMasks) (input_tensor : Tensor4) :
    Tensor4 :=
  lnX be cell (bnX be cell (cell.convInput (xDrop cell ms input_tensor)))

/-- Line 76 `x_c = self.conv(x)` followed by its normalization stages. -/
def x_c (be : Backend) (cell : ConvLSTMCell) (ms : StepMasks) (input_tensor : Tensor4) :
    Tensor4 :=
  lnX be cell (bnX be cell (cell.convInput (xDrop cell ms input_tensor)))

/-- Line 77 `x_o = self.conv(x)` followed by its normalization stages. -/
def x_o (be : Backend) (cell : ConvLSTMCell) (ms : StepMasks) (input_tensor : Tensor4) :
    Tensor4 :=
  lnX be cell (bnX be cell (cell.convInput (xDrop cell ms input_tensor)))

/-- Line 86 `h_i = self.rnn_conv(h)` followed by its layer-norm stage. -/
def h_i (be : Backend) (cell : ConvLSTMCell) (ms : StepMasks) (h_cur : Tensor4) : Tensor4 :=
  lnH be cell (cell.rnnConv (hDrop cell ms h_cur))

/-- Line 87 `h_f = self.rnn_conv(h)` followed by its layer-norm stage. -/
def h_f (be : Backend) (cell : ConvLSTMCell) (ms : StepMasks) (h_cur : Tensor4) : Tensor4 :=
  lnH be cell (cell.rnnConv (hDrop cell ms h_cur))

/-- Line 88 `h_c = self.rnn_conv(h)` followed by its layer-norm stage. -/
def h_c (be : Backend) (cell : ConvLSTMCell) (ms : StepMasks) (h_cur : Tensor4) : Tensor4 :=
  lnH be cell (cell.rnnConv (hDrop cell ms h_cur))

/-- Line 89 `h_o = self.rnn_conv(h)` followed by its layer-norm stage. -/
def h_o (be : Backend) (cell : ConvLSTMCell) (ms : StepMasks) (h_cur : Tensor4) : Tensor4 :=
  lnH be cell (cell.rnnConv (hDrop cell ms h_cur))

/-- Line 92 `c_i = self.rnn_conv(c)` (no normalization is applied to the
`c_*` maps in the source). -/
def c_i (cell : ConvLSTMCell) (ms : StepMasks) (c_cur : Tensor4) : Tensor4 :=
  cell.rnnConv (cDrop cell ms c_cur)

/-- Line 93 `c_f = self.rnn_conv(c)`. -/
def c_f (cell : ConvLSTMCell) (ms : StepMasks) (c_cur : Tensor4) : Tensor4 :=
  cell.rnnConv (cDrop cell ms c_cur)

/-- Line 94 `c_o = self.rnn_conv(c)`. -/
def c_o (cell : ConvLSTMCell) (ms : StepMasks) (c_cur : Tensor4) : Tensor4 :=
  cell.rnnConv (cDrop cell ms c_cur)

/-- Lines 107-112: the forget gate
`f = sigmoid((x_f + h_f) + c_f * c)` when peephole is set, else
`f = sigmoid(x_f + h_f)`.  Note the peephole factor is `c`, the
dropout-processed cell state. -/
def fGate (be : Backend) (cell : ConvLSTMCell) (ms : StepMasks)
    (input_tensor h_cur c_cur : Tensor4) : Tensor4 :=
  if cell.peephole then
    tmap be.sigmoid (x_f be cell ms input_tensor + h_f be cell ms h_cur +
      c_f cell ms c_cur * cDrop cell ms c_cur)
  else
    tmap be.sigmoid (x_f be cell ms input_tensor + h_f be cell ms h_cur)

/-- Lines 107-112: the input gate `i`. -/
def iGate (be : Backend) (cell : ConvLSTMCell) (ms : StepMasks)
    (input_tensor h_cur c_cur : Tensor4) : Tensor4 :=
  if cell.peephole then
    tmap be.sigmoid (x_i be cell ms input_tensor + h_i be cell ms h_cur +
      c_i cell ms c_cur * cDrop cell ms c_cur)
  else
    tmap be.sigmoid (x_i be cell ms input_tensor + h_i be cell ms h_cur)

/-- Line 115: the candidate `g = tanh(x_c + h_c)`. -/
def gCand (be : Backend) (cell : ConvLSTMCell) (ms : StepMasks)
    (input_tensor h_cur : Tensor4) : Tensor4 :=
  tmap be.tanh (x_c be cell ms input_tensor + h_c be cell ms h_cur)

/-- Line 116: `c_next = f * c + i * g`, with `c` the dropout-processed
cell state. -/
def cNext (be : Backend) (cell : ConvLSTMCell) (ms : StepMasks)
    (input_tensor h_cur c_cur : Tensor4) : Tensor4 :=
  fGate be cell ms input_tensor h_cur c_cur * cDrop cell ms c_cur +
    iGate be cell ms input_tensor h_cur c_cur * gCand be cell ms input_tensor h_cur

/-- Lines 117-120: the output gate `o`. -/
def oGate (be : Backend) (cell : ConvLSTMCell) (ms : StepMasks)
    (input_tensor h_cur c_cur : Tensor4) : Tensor4 :=
  if cell.peephole then
    tmap be.sigmoid (x_o be cell ms input_tensor + h_o be cell ms h_cur +
      c_o cell ms c_cur * cDrop cell ms c_cur)
  else
    tmap be.sigmoid (x_o be cell ms input_tensor + h_o be cell ms h_cur)

/-- Line 121: `h_next = o * tanh(c_next)`. -/
def hNext (be : Backend) (cell : ConvLSTMCell) (ms : StepMasks)
    (input_tensor h_cur c_cur : Tensor4) : Tensor4 :=
  oGate be cell ms input_tensor h_cur c_cur *
    tmap be.tanh (cNext be cell ms input_tensor h_cur c_cur)

/-- `ConvLSTMCell.forward(input_tensor, cur_state)` (lines 70-123): one
timestep; returns `(h_next, c_next)`. -/
def ConvLSTMCell.forward (be : Backend) (cell : ConvLSTMCell) (ms : StepMasks)
    (input_tensor : Tensor4) (cur_state : Tensor4 × Tensor4) : Tensor4 × Tensor4 :=
  (hNext be cell ms input_tensor cur_state.1 cur_state.2,
   cNext be cell ms input_tensor cur_state.1 cur_state.2)

/-- Python `int(...)` applied to an exact rational: truncation toward zero. -/
def pyInt (q : ℚ) : ℤ :=
  if 0 ≤ q then ⌊q⌋ else ⌈q⌉

/-- `ConvLSTMCell.init_hidden(batch_size, image_size)` (lines 125-130):
two zero tensors of shape `(batch_size, hidden_dim, height, width)` with
`height = int((H - kh + 2*ph)/sh + 1)` and `width` analogous. -/
def ConvLSTMCell.init_hidden (cell : ConvLSTMCell) (batch_size H W : ℕ) :
    Tensor4 × Tensor4 :=
  let height := (pyInt (((H : ℚ) - cell.kh + 2 * cell.ph) / cell.sh + 1)).toNat
  let width := (pyInt (((W : ℚ) - cell.kw + 2 * cell.pw) / cell.sw + 1)).toNat
  (⟨batch_size, cell.hidden_dim, height, width, fun _ _ _ _ => 0⟩,
   ⟨batch_size, cell.hidden_dim, height, width, fun _ _ _ _ => 0⟩)

/-- A 5-d tensor; field names follow the batch-first reading
`(batch, time, channels, height, width)` of the runner. -/
structure Tensor5 where
  batch : ℕ
  time : ℕ
  channels : ℕ
  height : ℕ
  width : ℕ
  data : ℕ → ℕ → ℕ → ℕ → ℕ → ℚ

/-- Line 204: `input_tensor.permute(1, 0, 2, 3, 4)` — swap the first two
axes of a 5-d tensor. -/
def permute10 (x : Tensor5) : Tensor5 :=
  ⟨x.time, x.batch, x.channels, x.height, x.width,
    fun b t c i j => x.data t b c i j⟩

/-- The time slice `x[:, t, :, :, :]` of a (batch-first) 5-d tensor. -/
def slice (x : Tensor5) (t : ℕ) : Tensor4 :=
  ⟨x.batch, x.channels, x.height, x.width, fun b c i j => x.data b t c i j⟩

/-- Default 4-d tensor used for out-of-range list reads. -/
def zero4 : Tensor4 := ⟨0, 0, 0, 0, fun _ _ _ _ => 0⟩

/-- `torch.stack(l, dim=1)`: stack equal-shaped 4-d tensors along a new
time axis. -/
def stackTime (l : List Tensor4) : Tensor5 :=
  ⟨(l.headD zero4).batch, l.length, (l.headD zero4).channels,
    (l.headD zero4).height, (l.headD zero4).width,
    fun b t c i j => (l.getD t zero4).data b c i j⟩

/-- `torch.cat((a, b), dim=2)`: concatenate along the channel axis. -/
def catChannels (a b : Tensor5) : Tensor5 :=
  ⟨a.batch, a.time, a.channels + b.channels, a.height, a.width,
    fun bb t c i j =>
      if c < a.channels then a.data bb t c i j else b.data bb t (c - a.channels) i j⟩

/-- `layer_output[:, -1:]`: keep only the last timestep, as a length-1
time axis. -/
def lastTimeSlice (x : Tensor5) : Tensor5 :=
  ⟨x.batch, 1, x.channels, x.height, x.width,
    fun b t c i j => x.data b (x.time - 1 + t) c i j⟩

/-- `ConvLSTM.__init__`: the runner's flags and its single cell
(`self.cell_list` is one `ConvLSTMCell`, used by both directions). -/
structure ConvLSTM where
  batch_first : Bool
  return_sequence : Bool
  bidirectional : Bool
  cell_list : ConvLSTMCell

/-- The per-timestep loop of `ConvLSTM.forward`: iterate the cell over the
given list of time indices of `x`, threading the state and collecting each
step's hidden output.  `ms` supplies the dropout draws in call order. -/
def loopOver (be : Backend) (cell : ConvLSTMCell) :
    (ℕ → StepMasks) → Tensor5 → List ℕ → Tensor4 × Tensor4 →
    List Tensor4 × (Tensor4 × Tensor4)
  | _, _, [], s => ([], s)
  | ms, x, t :: ts, s =>
    let s1 := ConvLSTMCell.forward be cell (ms 0) (slice x t) s
    let rest := loopOver be cell (fun n => ms (n + 1)) x ts s1
    (s1.1 :: rest.1, rest.2)

/-- The forward recurrence over an explicit list of input frames (the
specification's description of a single-direction pass): thread the state
through the frames in list order, collecting hidden outputs. -/
def runDirection (be : Backend) (cell : ConvLSTMCell) :
    (ℕ → StepMasks) → List Tensor4 → Tensor4 × Tensor4 →
    List Tensor4 × (Tensor4 × Tensor4)
  | _, [], s => ([], s)
  | ms, f :: fs, s =>
    let s1 := ConvLSTMCell.forward be cell (ms 0) f s
    let rest := runDirection be cell (fun n => ms (n + 1)) fs s1
    (s1.1 :: rest.1, rest.2)

/-- The list of time slices of a (batch-first) 5-d input. -/
def seqSlices (x : Tensor5) : List Tensor4 :=
  (List.range x.time).map (slice x)

/-- A 5-d tensor with its time axis reversed. -/
def timeReverse (x : Tensor5) : Tensor5 :=
  ⟨x.batch, x.time, x.channels, x.height, x.width,
    fun b t c i j => x.data b (x.time - 1 - t) c i j⟩

/-- Lines 202-204: the runner's view of the input after layout
normalization — the tensor itself when `batch_first`, else with its first
two axes swapped. -/
def normalizedInput (m : ConvLSTM) (x : Tensor5) : Tensor5 :=
  if m.batch_first then x else permute10 x

/-- The error the runner raises on a non-None `hidden_state` (line 210). -/
inductive PyError where
  | notImplementedError
deriving DecidableEq

/-- The body of `ConvLSTM.forward` after the `hidden_state` check (lines
202-250): normalize to batch-first, zero-init state, run the forward loop
over `t = 0 .. seq_len-1`, and, when bidirectional, the backward loop over
`t = seq_len-1 .. 0` with its outputs reversed back and concatenated along
channels; truncate to the last timestep unless `return_sequence`. -/
def ConvLSTM.forwardCore (be : Backend) (m : ConvLSTM) (entropy : ℕ → StepMasks)
    (input_tensor : Tensor5) :
    Tensor5 × (Tensor4 × Tensor4) × Option (Tensor4 × Tensor4) :=
  let inp := normalizedInput m input_tensor
  let seq_len := inp.time
  let hidden_state := m.cell_list.init_hidden inp.batch inp.height inp.width
  let fw := loopOver be m.cell_list entropy inp (List.range seq_len) hidden_state
  let output_inner := stackTime fw.1
  let last_state := fw.2
  if m.bidirectional then
    let hidden_state_inv := m.cell_list.init_hidden inp.batch inp.height inp.width
    let bw := loopOver be m.cell_list (fun n => entropy (seq_len + n)) inp
      ((List.range seq_len).reverse) hidden_state_inv
    let output_inv := stackTime bw.1.reverse
    let layer_output := catChannels output_inner output_inv
    ((if m.return_sequence then layer_output else lastTimeSlice layer_output),
      last_state, some bw.2)
  else
    ((if m.return_sequence then output_inner else lastTimeSlice output_inner),
      last_state, none)

/-- `ConvLSTM.forward(input_tensor, hidden_state=None)` (lines 190-250):
a non-None `hidden_state` raises `NotImplementedError` before any
per-timestep computation; otherwise the sequence is processed. -/
def ConvLSTM.forward (be : Backend) (m : ConvLSTM) (entropy : ℕ → StepMasks)
    (input_tensor : Tensor5) (hidden_state : Option (Tensor4 × Tensor4)) :
    Except PyError (Tensor5 × (Tensor4 × Tensor4) × Option (Tensor4 × Tensor4)) :=
  match hidden_state with
  | some _ => Except.error PyError.notImplementedError
  | none => Except.ok (ConvLSTM.forwardCore be m entropy input_tensor)

/-! ## Small simp lemmas for elementwise operations -/

@[simp]
theorem add_batch (a b : Tensor4) : (a + b).batch = a.batch := rfl

@[simp]
theorem add_channels (a b : Tensor4) : (a + b).channels = a.channels := rfl

@[simp]
theorem add_height (a b : Tensor4) : (a + b).height = a.height := rfl

@[simp]
theorem add_width (a b : Tensor4) : (a + b).width = a.width := rfl

@[simp]
theorem mul_batch (a b : Tensor4) : (a * b).batch = a.batch := rfl

@[simp]
theorem mul_channels (a b : Tensor4) : (a * b).channels = a.channels := rfl

@[simp]
theorem mul_height (a b : Tensor4) : (a * b).height = a.height := rfl

@[simp]
theorem mul_width (a b : Tensor4) : (a * b).width = a.width := rfl

@[simp]
theorem tmap_batch (f : ℚ → ℚ) (a : Tensor4) : (tmap f a).batch = a.batch := rfl

@[simp]
theorem tmap_channels (f : ℚ → ℚ) (a : Tensor4) : (tmap f a).channels = a.channels := rfl

@[simp]
theorem tmap_height (f : ℚ → ℚ) (a : Tensor4) : (tmap f a).height = a.height := rfl

@[simp]
theorem tmap_width (f : ℚ → ℚ) (a : Tensor4) : (tmap f a).width = a.width := rfl

@[simp]
theorem add_data (a b : Tensor4) (x y z w : ℕ) :
    (a + b).data x y z w = a.data x y z w + b.data x y z w := rfl

@[simp]
theorem mul_data (a b : Tensor4) (x y z w : ℕ) :
    (a * b).data x y z w = a.data x y z w * b.data x y z w := rfl

@[simp]
theorem tmap_data (f : ℚ → ℚ) (a : Tensor4) (x y z w : ℕ) :
    (tmap f a).data x y z w = f (a.data x y z w) := rfl

/-! ## Concrete instances used by counterexamples and witnesses -/

/-- Backend whose activations are the identity and whose normalizations are
the identity map; exact-arithmetic stand-in used on concrete inputs. -/
def beId : Backend :=
  ⟨fun q => q, fun q => q, fun t => t, fun t => t, fun t => t⟩

/-- All-zero convolution weights. -/
def zeroW : ℕ → ℕ → ℕ → ℕ → ℚ := fun _ _ _ _ => 0

/-- All-one bias vector. -/
def oneB : ℕ → ℚ := fun _ => 1

/-- Keep-everything dropout mask. -/
def maskT : Mask := fun _ _ _ _ => true

/-- Drop-everything dropout mask. -/
def maskF : Mask := fun _ _ _ _ => false

/-- Mask triple that keeps input and hidden entries but drops every cell
entry. -/
def msDropC : StepMasks := ⟨maskT, maskT, maskF⟩

/-- Mask triple that keeps everything. -/
def msAll : StepMasks := ⟨maskT, maskT, maskT⟩

/-- Mask triple that drops everything. -/
def msNone : StepMasks := ⟨maskF, maskF, maskF⟩

/-- Shape-(1,1,1,1) tensor of ones. -/
def ones4 : Tensor4 := ⟨1, 1, 1, 1, fun _ _ _ _ => 1⟩

/-- Shape-(1,1,1,1) tensor of zeros. -/
def zeros4 : Tensor4 := ⟨1, 1, 1, 1, fun _ _ _ _ => 0⟩

/-- Tiny 1-channel cell: 1x1 kernel, stride 1, no padding, zero weights,
bias 1, cnn dropout 0 but rnn dropout 1/2, peephole off. -/
def cellC1 : ConvLSTMCell where
  input_dim := 1
  hidden_dim := 1
  kh := 1
  kw := 1
  sh := 1
  sw := 1
  ph := 0
  pw := 0
  cnn_dropout := 0
  rnn_dropout := 1 / 2
  bias := true
  peephole := false
  batch_norm := false
  layer_norm := false
  convW := zeroW
  convB := oneB
  rnnW := zeroW
  rnnB := oneB

/-- `cellC1` with the peephole connection enabled. -/
def cellC2 : ConvLSTMCell :=
  { cellC1 with peephole := true }

/-! ## C1: candidate / cell / hidden update formulas -/

/-- C1 (amended): at every position, the candidate is
`g = tanh(x_c + h_c)`, the returned cell state is
`c_next = f * c + i * g` where `c` is the dropout-processed cell state
(`c = cell_prev` when `rnn_dropout = 0`), and the returned hidden state is
`h_next = o * tanh(c_next)`. -/
theorem c1_state_update (be : Backend) (cell : ConvLSTMCell) (ms : StepMasks)
    (input_tensor h_cur c_cur : Tensor4) (b ch i j : ℕ) :
    (gCand be cell ms input_tensor h_cur).data b ch i j
        = be.tanh ((x_c be cell ms input_tensor).data b ch i j
            + (h_c be cell ms h_cur).data b ch i j)
      ∧ (ConvLSTMCell.forward be cell ms input_tensor (h_cur, c_cur)).2.data b ch i j
        = (fGate be cell ms input_tensor h_cur c_cur).data b ch i j
            * (cDrop cell ms c_cur).data b ch i j
          + (iGate be cell ms input_tensor h_cur c_cur).data b ch i j
            * (gCand be cell ms input_tensor h_cur).data b ch i j
      ∧ (ConvLSTMCell.forward be cell ms input_tensor (h_cur, c_cur)).1.data b ch i j
        = (oGate be cell ms input_tensor h_cur c_cur).data b ch i j
          * be.tanh
            ((ConvLSTMCell.forward be cell ms input_tensor (h_cur, c_cur)).2.data b ch i j) :=
  ⟨rfl, rfl, rfl⟩

/-- C1 counterexample: with `rnn_dropout = 1/2` and a mask that drops the
cell entry, the returned cell state is `f * c + i * g` with `c` the
dropped cell state, not `f * cell_prev + i * g` as the claim states
(the two differ: 4 versus 6 at the probed position). -/
theorem c1_counterexample :
    (ConvLSTMCell.forward beId cellC1 msDropC zeros4 (zeros4, ones4)).2.data 0 0 0 0
      ≠ ((fGate beId cellC1 msDropC zeros4 zeros4 ones4) * ones4
          + (iGate beId cellC1 msDropC zeros4 zeros4 ones4)
            * (gCand beId cellC1 msDropC zeros4 zeros4)).data 0 0 0 0 := by
  norm_num [ConvLSTMCell.forward, hNext, cNext, oGate, fGate, iGate, gCand,
    x_i, x_f, x_c, x_o, h_i, h_f, h_c, h_o, c_i, c_f, c_o,
    xDrop, hDrop, cDrop, applyDropout, bnX, lnX, lnH,
    ConvLSTMCell.convInput, ConvLSTMCell.rnnConv, conv2d, sumRange_one, padAt,
    cellC1, beId, msDropC, maskT, maskF, zeros4, ones4, zeroW, oneB, tmap]

/-! ## C2: gate formulas -/

/-- C2 (amended): at every position the three gates are
`sigmoid(x_* + h_* + (c_* * c if peephole else 0))` where `c_i, c_f, c_o`
are the recurrent convolution of the dropout-processed cell state `c`, and
the peephole multiplicand is that same dropped state `c` (not the raw
`cell_prev`; the two coincide when `rnn_dropout = 0`). -/
theorem c2_gate_formulas (be : Backend) (cell : ConvLSTMCell) (ms : StepMasks)
    (input_tensor h_cur c_cur : Tensor4) (b ch i j : ℕ) :
    (fGate be cell ms input_tensor h_cur c_cur).data b ch i j
        = be.sigmoid ((x_f be cell ms input_tensor).data b ch i j
            + (h_f be cell ms h_cur).data b ch i j
            + (if cell.peephole then
                (c_f cell ms c_cur).data b ch i j * (cDrop cell ms c_cur).data b ch i j
              else 0))
      ∧ (iGate be cell ms input_tensor h_cur c_cur).data b ch i j
        = be.sigmoid ((x_i be cell ms input_tensor).data b ch i j
            + (h_i be cell ms h_cur).data b ch i j
            + (if cell.peephole then
                (c_i cell ms c_cur).data b ch i j * (cDrop cell ms c_cur).data b ch i j
              else 0))
      ∧ (oGate be cell ms input_tensor h_cur c_cur).data b ch i j
        = be.sigmoid ((x_o be cell ms input_tensor).data b ch i j
            + (h_o be cell ms h_cur).data b ch i j
            + (if cell.peephole then
                (c_o cell ms c_cur).data b ch i j * (cDrop cell ms c_cur).data b ch i j
              else 0)) := by
  refine ⟨?_, ?_, ?_⟩ <;>
    · by_cases hp : cell.peephole <;> simp [fGate, iGate, oGate, hp]

/-- C2 counterexample: with the peephole enabled and `rnn_dropout = 1/2`
dropping the cell entry, the computed forget gate uses the dropped cell
state as peephole multiplicand, so it differs from the claim's
`sigmoid(x_f + h_f + c_f * cell_prev)` (2 versus 3 at the probed
position). -/
theorem c2_counterexample :
    (fGate beId cellC2 msDropC zeros4 zeros4 ones4).data 0 0 0 0
      ≠ beId.sigmoid ((x_f beId cellC2 msDropC zeros4).data 0 0 0 0
          + (h_f beId cellC2 msDropC zeros4).data 0 0 0 0
          + (c_f cellC2 msDropC ones4).data 0 0 0 0 * ones4.data 0 0 0 0) := by
  norm_num [fGate, x_f, h_f, c_f, xDrop, hDrop, cDrop, applyDropout, bnX, lnX, lnH,
    ConvLSTMCell.convInput, ConvLSTMCell.rnnConv, conv2d, sumRange_one, padAt,
    cellC2, cellC1, beId, msDropC, maskT, maskF, zeros4, ones4, zeroW, oneB, tmap]

/-! ## C3: the four x-side (and four h-side) pre-activations coincide -/

/-- C3: within one call, the four input-side pre-activations are
numerically identical, and so are the four recurrent pre-activations:
each quadruple is one shared convolution applied to one shared
(dropped-out) argument. -/
theorem c3_shared_preactivations (be : Backend) (cell : ConvLSTMCell) (ms : StepMasks)
    (input_tensor h_cur : Tensor4) :
    x_i be cell ms input_tensor = x_f be cell ms input_tensor
      ∧ x_f be cell ms input_tensor = x_c be cell ms input_tensor
      ∧ x_c be cell ms input_tensor = x_o be cell ms input_tensor
      ∧ h_i be cell ms h_cur = h_f be cell ms h_cur
      ∧ h_f be cell ms h_cur = h_c be cell ms h_cur
      ∧ h_c be cell ms h_cur = h_o be cell ms h_cur :=
  ⟨rfl, rfl, rfl, rfl, rfl, rfl⟩

/-! ## C5: explicit initial state is rejected -/

/-- C5: for every configuration and input, a non-None initial state makes
the runner fail with `NotImplementedError` before any per-timestep
computation, and a None initial state never produces that error (the run
succeeds with the computed result). -/
theorem c5_initial_state_unsupported (be : Backend) (m : ConvLSTM)
    (entropy : ℕ → StepMasks) (input_tensor : Tensor5) (st : Tensor4 × Tensor4) :
    ConvLSTM.forward be m entropy input_tensor (some st)
        = Except.error PyError.notImplementedError
      ∧ ConvLSTM.forward be m entropy input_tensor none
        = Except.ok (ConvLSTM.forwardCore be m entropy input_tensor) :=
  ⟨rfl, rfl⟩

/-! ## C4: zero-state initialization -/

/-- Concrete cell matching the spec's section-8 scenario: 3 input
channels, 4 hidden channels, 3x3 kernel, stride 1, padding 1, dropout 0,
every optional feature off. -/
def cellC4 : ConvLSTMCell where
  input_dim := 3
  hidden_dim := 4
  kh := 3
  kw := 3
  sh := 1
  sw := 1
  ph := 1
  pw := 1
  cnn_dropout := 0
  rnn_dropout := 0
  bias := true
  peephole := false
  batch_norm := false
  layer_norm := false
  convW := zeroW
  convB := oneB
  rnnW := zeroW
  rnnB := oneB

/-- Truncation equals floor, shifted by one, on the nonnegative inputs the
valid configurations produce. -/
theorem pyInt_div_add_one (A s : ℚ) (hA : 0 ≤ A) (hs : 0 < s) :
    ((pyInt (A / s + 1)).toNat : ℤ) = ⌊A / s⌋ + 1 := by
  have hq : (0 : ℚ) ≤ A / s := div_nonneg hA (le_of_lt hs)
  have h0 : (0 : ℚ) ≤ A / s + 1 := by linarith
  have hfl : pyInt (A / s + 1) = ⌊A / s⌋ + 1 := by
    rw [pyInt, if_pos h0]
    exact_mod_cast Int.floor_add_int (A / s) 1
  rw [hfl, Int.toNat_of_nonneg]
  have := Int.floor_nonneg.mpr hq
  omega

/-- C4: for every batch size and valid spatial size, `init_hidden` returns
a pair of all-zero tensors of shape
`(B, hidden_dim, floor((H - kh + 2*ph)/sh) + 1, floor((W - kw + 2*pw)/sw) + 1)`. -/
theorem c4_init_state (cell : ConvLSTMCell) (B H W : ℕ)
    (hH : cell.kh ≤ H + 2 * cell.ph) (hW : cell.kw ≤ W + 2 * cell.pw)
    (hsh : 0 < cell.sh) (hsw : 0 < cell.sw) :
    (cell.init_hidden B H W).1.data = (fun _ _ _ _ => (0 : ℚ))
      ∧ (cell.init_hidden B H W).2.data = (fun _ _ _ _ => (0 : ℚ))
      ∧ (cell.init_hidden B H W).2 = (cell.init_hidden B H W).1
      ∧ (cell.init_hidden B H W).1.batch = B
      ∧ (cell.init_hidden B H W).1.channels = cell.hidden_dim
      ∧ ((cell.init_hidden B H W).1.height : ℤ)
          = ⌊((H : ℚ) - cell.kh + 2 * cell.ph) / cell.sh⌋ + 1
      ∧ ((cell.init_hidden B H W).1.width : ℤ)
          = ⌊((W : ℚ) - cell.kw + 2 * cell.pw) / cell.sw⌋ + 1 := by
  have hshQ : (0 : ℚ) < cell.sh := by exact_mod_cast hsh
  have hswQ : (0 : ℚ) < cell.sw := by exact_mod_cast hsw
  have hHQ : (0 : ℚ) ≤ (H : ℚ) - cell.kh + 2 * cell.ph := by
    have : (cell.kh : ℚ) ≤ (H : ℚ) + 2 * cell.ph := by exact_mod_cast hH
    linarith
  have hWQ : (0 : ℚ) ≤ (W : ℚ) - cell.kw + 2 * cell.pw := by
    have : (cell.kw : ℚ) ≤ (W : ℚ) + 2 * cell.pw := by exact_mod_cast hW
    linarith
  refine ⟨rfl, rfl, rfl, rfl, rfl, ?_, ?_⟩
  · exact pyInt_div_add_one _ _ hHQ hshQ
  · exact pyInt_div_add_one _ _ hWQ hswQ

/-- Witness for C4 at the spec's concrete scenario `B = 2, H = W = 8`,
kernel 3x3, stride 1, padding 1: output spatial size 8 and all-zero data. -/
theorem c4_witness :
    cellC4.kh ≤ 8 + 2 * cellC4.ph ∧ 0 < cellC4.sh
      ∧ (cellC4.init_hidden 2 8 8).1.data = (fun _ _ _ _ => (0 : ℚ))
      ∧ ((cellC4.init_hidden 2 8 8).1.height : ℤ)
          = ⌊((8 : ℚ) - cellC4.kh + 2 * cellC4.ph) / cellC4.sh⌋ + 1 := by
  have h := c4_init_state cellC4 2 8 8 (by decide) (by decide) (by decide) (by decide)
  exact ⟨by decide, by decide, h.1, h.2.2.2.2.2.1⟩

/-! ## C7: determinism when dropout is off -/

/-- Rate-0 dropout is the identity, whatever the mask draw. -/
theorem applyDropout_zero (m : Mask) (x : Tensor4) : applyDropout 0 m x = x := by
  refine Tensor4.ext rfl rfl rfl rfl ?_
  funext b c i j
  simp [applyDropout]

/-- C7: with both dropout rates 0 and peephole, batch-norm and layer-norm
disabled, the step is a deterministic function of the inputs and weights:
the dropout mask draws (the only entropy source) do not affect the
returned `(hidden_next, cell_next)` pair. -/
theorem c7_deterministic (be : Backend) (cell : ConvLSTMCell)
    (h0 : cell.cnn_dropout = 0) (h1 : cell.rnn_dropout = 0)
    (h2 : cell.peephole = false) (h3 : cell.batch_norm = false)
    (h4 : cell.layer_norm = false)
    (ms1 ms2 : StepMasks) (input_tensor h_cur c_cur : Tensor4) :
    ConvLSTMCell.forward be cell ms1 input_tensor (h_cur, c_cur)
      = ConvLSTMCell.forward be cell ms2 input_tensor (h_cur, c_cur) := by
  simp [ConvLSTMCell.forward, hNext, cNext, oGate, fGate, iGate, gCand,
    x_i, x_f, x_c, x_o, h_i, h_f, h_c, h_o, c_i, c_f, c_o,
    xDrop, hDrop, cDrop, bnX, lnX, lnH, h0, h1, h2, h3, h4, applyDropout_zero]

/-- Witness for C7: the dropout-free, all-features-off cell gives the same
output under a keep-all and a drop-all mask draw. -/
theorem c7_witness :
    cellC4.cnn_dropout = 0 ∧ cellC4.rnn_dropout = 0 ∧ cellC4.peephole = false
      ∧ ConvLSTMCell.forward beId cellC4 msAll ones4 (ones4, ones4)
        = ConvLSTMCell.forward beId cellC4 msNone ones4 (ones4, ones4) :=
  ⟨rfl, rfl, rfl,
    c7_deterministic beId cellC4 rfl rfl rfl rfl rfl msAll msNone ones4 ones4 ones4⟩

/-! ## C9: effect of the peephole connection on the gates -/

/-- Toggling the peephole flag leaves the input-side pre-activation
unchanged (it reads no peephole-dependent field). -/
theorem x_f_peephole_irrel (be : Backend) (cell : ConvLSTMCell) (b : Bool)
    (ms : StepMasks) (input_tensor : Tensor4) :
    x_f be { cell with peephole := b } ms input_tensor = x_f be cell ms input_tensor := rfl

/-- Toggling the peephole flag leaves `x_i` unchanged. -/
theorem x_i_peephole_irrel (be : Backend) (cell : ConvLSTMCell) (b : Bool)
    (ms : StepMasks) (input_tensor : Tensor4) :
    x_i be { cell with peephole := b } ms input_tensor = x_i be cell ms input_tensor := rfl

/-- Toggling the peephole flag leaves `x_o` unchanged. -/
theorem x_o_peephole_irrel (be : Backend) (cell : ConvLSTMCell) (b : Bool)
    (ms : StepMasks) (input_tensor : Tensor4) :
    x_o be { cell with peephole := b } ms input_tensor = x_o be cell ms input_tensor := rfl

/-- Toggling the peephole flag leaves `h_f` unchanged. -/
theorem h_f_peephole_irrel (be : Backend) (cell : ConvLSTMCell) (b : Bool)
    (ms : StepMasks) (h_cur : Tensor4) :
    h_f be { cell with peephole := b } ms h_cur = h_f be cell ms h_cur := rfl

/-- Toggling the peephole flag leaves `h_i` unchanged. -/
theorem h_i_peephole_irrel (be : Backend) (cell : ConvLSTMCell) (b : Bool)
    (ms : StepMasks) (h_cur : Tensor4) :
    h_i be { cell with peephole := b } ms h_cur = h_i be cell ms h_cur := rfl

/-- Toggling the peephole flag leaves `h_o` unchanged. -/
theorem h_o_peephole_irrel (be : Backend) (cell : ConvLSTMCell) (b : Bool)
    (ms : StepMasks) (h_cur : Tensor4) :
    h_o be { cell with peephole := b } ms h_cur = h_o be cell ms h_cur := rfl

/-- Toggling the peephole flag leaves `c_f` unchanged. -/
theorem c_f_peephole_irrel (cell : ConvLSTMCell) (b : Bool)
    (ms : StepMasks) (c_cur : Tensor4) :
    c_f { cell with peephole := b } ms c_cur = c_f cell ms c_cur := rfl

/-- Toggling the peephole flag leaves `c_i` unchanged. -/
theorem c_i_peephole_irrel (cell : ConvLSTMCell) (b : Bool)
    (ms : StepMasks) (c_cur : Tensor4) :
    c_i { cell with peephole := b } ms c_cur = c_i cell ms c_cur := rfl

/-- Toggling the peephole flag leaves `c_o` unchanged. -/
theorem c_o_peephole_irrel (cell : ConvLSTMCell) (b : Bool)
    (ms : StepMasks) (c_cur : Tensor4) :
    c_o { cell with peephole := b } ms c_cur = c_o cell ms c_cur := rfl

/-- Toggling the peephole flag leaves the dropped cell state unchanged. -/
theorem cDrop_peephole_irrel (cell : ConvLSTMCell) (b : Bool)
    (ms : StepMasks) (c_cur : Tensor4) :
    cDrop { cell with peephole := b } ms c_cur = cDrop cell ms c_cur := rfl

/-- A dropout pass maps an all-zero tensor to an all-zero data function. -/
theorem applyDropout_zero_data (p : ℚ) (m : Mask) (x : Tensor4)
    (hx : x.data = fun _ _ _ _ => (0 : ℚ)) (b c i j : ℕ) :
    (applyDropout p m x).data b c i j = 0 := by
  by_cases hp : p = 0 <;> by_cases hm : m b c i j <;> simp [applyDropout, hp, hm, hx]

/-- C9 (amended): enabling the peephole leaves the three gates unchanged
whenever `cell_prev` is exactly zero; and when the peephole term
`c_* * c` (recurrent convolution of the dropped cell state, times that
dropped state) is nonzero at a position, the gates change there, provided
the backend sigmoid is injective (true of the real sigmoid).  A nonzero
`cell_prev` alone does not force a change: all-zero recurrent weights and
bias make the peephole term vanish (see the counterexample). -/
theorem c9_peephole_effect (be : Backend) (cell : ConvLSTMCell) (ms : StepMasks)
    (input_tensor h_cur c_cur : Tensor4) :
    (c_cur.data = (fun _ _ _ _ => (0 : ℚ)) →
      fGate be { cell with peephole := true } ms input_tensor h_cur c_cur
          = fGate be { cell with peephole := false } ms input_tensor h_cur c_cur
        ∧ iGate be { cell with peephole := true } ms input_tensor h_cur c_cur
          = iGate be { cell with peephole := false } ms input_tensor h_cur c_cur
        ∧ oGate be { cell with peephole := true } ms input_tensor h_cur c_cur
          = oGate be { cell with peephole := false } ms input_tensor h_cur c_cur)
      ∧ (Function.Injective be.sigmoid →
        ∀ b ch i j : ℕ,
          (c_f cell ms c_cur).data b ch i j * (cDrop cell ms c_cur).data b ch i j ≠ 0 →
          (fGate be { cell with peephole := true } ms input_tensor h_cur c_cur).data b ch i j
              ≠ (fGate be { cell with peephole := false } ms input_tensor h_cur c_cur).data
                  b ch i j
            ∧ (iGate be { cell with peephole := true } ms input_tensor h_cur c_cur).data b ch i j
              ≠ (iGate be { cell with peephole := false } ms input_tensor h_cur c_cur).data
                  b ch i j
            ∧ (oGate be { cell with peephole := true } ms input_tensor h_cur c_cur).data b ch i j
              ≠ (oGate be { cell with peephole := false } ms input_tensor h_cur c_cur).data
                  b ch i j) := by
  constructor
  · intro hz
    have hcd : ∀ b c i j : ℕ, (cDrop cell ms c_cur).data b c i j = 0 := fun b c i j =>
      applyDropout_zero_data _ _ _ hz b c i j
    refine ⟨?_, ?_, ?_⟩ <;>
      · refine Tensor4.ext rfl rfl rfl rfl ?_
        funext b c i j
        simp [fGate, iGate, oGate, cDrop_peephole_irrel, hcd,
          x_f_peephole_irrel, x_i_peephole_irrel, x_o_peephole_irrel,
          h_f_peephole_irrel, h_i_peephole_irrel, h_o_peephole_irrel,
          c_f_peephole_irrel]
  · intro hinj b ch i j hne
    have key : ∀ a t : ℚ, t ≠ 0 → be.sigmoid (a + t) ≠ be.sigmoid a := by
      intro a t ht heq
      have := hinj heq
      exact ht (by linarith)
    have hcic : c_i cell ms c_cur = c_f cell ms c_cur := rfl
    have hcoc : c_o cell ms c_cur = c_f cell ms c_cur := rfl
    refine ⟨?_, ?_, ?_⟩ <;>
      · simp [fGate, iGate, oGate, x_f_peephole_irrel, x_i_peephole_irrel,
          x_o_peephole_irrel, h_f_peephole_irrel, h_i_peephole_irrel, h_o_peephole_irrel,
          c_f_peephole_irrel, c_i_peephole_irrel, c_o_peephole_irrel,
          cDrop_peephole_irrel, hcic, hcoc]
        exact key _ _ hne

/-- Cell with all-zero recurrent weights and bias (and no dropout): the
peephole term vanishes identically even on a nonzero cell state. -/
def cellZeroRnn : ConvLSTMCell :=
  { cellC1 with rnn_dropout := 0, rnnB := fun _ => 0 }

/-- C9 counterexample: for `cellZeroRnn` the previous cell state is nonzero
at the probed position, yet enabling the peephole changes none of the
three gates — refuting the claim that the gates change whenever
`cell_prev` is nonzero. -/
theorem c9_counterexample :
    ones4.data 0 0 0 0 ≠ 0
      ∧ fGate beId { cellZeroRnn with peephole := true } msAll zeros4 zeros4 ones4
        = fGate beId { cellZeroRnn with peephole := false } msAll zeros4 zeros4 ones4
      ∧ iGate beId { cellZeroRnn with peephole := true } msAll zeros4 zeros4 ones4
        = iGate beId { cellZeroRnn with peephole := false } msAll zeros4 zeros4 ones4
      ∧ oGate beId { cellZeroRnn with peephole := true } msAll zeros4 zeros4 ones4
        = oGate beId { cellZeroRnn with peephole := false } msAll zeros4 zeros4 ones4 := by
  refine ⟨by norm_num [ones4], ?_, ?_, ?_⟩ <;>
    · refine Tensor4.ext rfl rfl rfl rfl ?_
      funext b c i j
      norm_num [fGate, iGate, oGate, c_f, c_i, c_o, cDrop, applyDropout,
        x_f, x_i, x_o, h_f, h_i, h_o, xDrop, hDrop, bnX, lnX, lnH,
        ConvLSTMCell.convInput, ConvLSTMCell.rnnConv, conv2d, sumRange_one, padAt,
        cellZeroRnn, cellC1, zeroW, oneB, ones4, zeros4]

/-- Cell like `cellC1` but with no dropout at all (recurrent bias 1), so
the peephole term is nonzero on a ones cell state. -/
def cellNoDrop : ConvLSTMCell :=
  { cellC1 with rnn_dropout := 0 }

/-- Witness for C9: the zero-cell branch applied at an all-zero cell state,
and the change branch applied with the identity (injective) sigmoid at a
position where the peephole term is 1. -/
theorem c9_witness :
    (fGate beId { cellC1 with peephole := true } msDropC zeros4 zeros4 zeros4
        = fGate beId { cellC1 with peephole := false } msDropC zeros4 zeros4 zeros4)
      ∧ (fGate beId { cellNoDrop with peephole := true } msAll zeros4 zeros4 ones4).data 0 0 0 0
        ≠ (fGate beId { cellNoDrop with peephole := false } msAll zeros4 zeros4 ones4).data
            0 0 0 0 := by
  constructor
  · exact ((c9_peephole_effect beId cellC1 msDropC zeros4 zeros4 zeros4).1 rfl).1
  · refine ((c9_peephole_effect beId cellNoDrop msAll zeros4 zeros4 ones4).2
      (fun a b h => h) 0 0 0 0 ?_).1
    simp [c_f, cDrop, applyDropout, ConvLSTMCell.rnnConv, conv2d, sumRange_one, padAt,
      cellNoDrop, cellC1, zeroW, oneB, ones4]

/-! ## C6 and C10: the backward loop is the forward recurrence over
reversed time, with the same single cell -/

/-- The runner's indexed per-timestep loop is the plain forward recurrence
over the corresponding list of time slices. -/
theorem loopOver_eq_runDirection (be : Backend) (cell : ConvLSTMCell) :
    ∀ (ts : List ℕ) (ms : ℕ → StepMasks) (x : Tensor5) (s : Tensor4 × Tensor4),
      loopOver be cell ms x ts s = runDirection be cell ms (ts.map (slice x)) s := by
  intro ts
  induction ts with
  | nil => intro ms x s; rfl
  | cons t ts ih =>
    intro ms x s
    simp [loopOver, runDirection, ih]

/-- Reversing `[0, ..., n-1]` is the same as mapping `t ↦ n - 1 - t`
over it. -/
theorem range_reverse_map (n : ℕ) :
    (List.range n).reverse = (List.range n).map (fun t => n - 1 - t) := by
  induction n with
  | zero => rfl
  | succ n ih =>
    have h1 : (List.range (n + 1)).reverse = n :: (List.range n).reverse := by
      rw [List.range_succ]
      simp
    have h2 : List.range (n + 1) = 0 :: (List.range n).map Nat.succ :=
      List.range_succ_eq_map n
    have h3 : ((fun t => n + 1 - 1 - t) ∘ Nat.succ) = fun t => n - 1 - t := by
      funext t
      simp [Function.comp]
      omega
    rw [h1, h2, ih, List.map_cons, List.map_map, h3]
    simp

/-- Slicing the time-reversed input at `t` is slicing the input at
`T - 1 - t`. -/
theorem slice_timeReverse (x : Tensor5) (t : ℕ) :
    slice (timeReverse x) t = slice x (x.time - 1 - t) := rfl

/-- C6 (amended): the backward loop (time indices `T-1 .. 0`) over an
input is, output list and final state alike, exactly the forward loop
(time indices `0 .. T-1`) over the time-reversed input, with the same
cell, weights, initial state and dropout draws.  The claim as stated,
which compares the backward outputs after their re-reversal into
time-increasing order with the forward outputs on the reversed input,
instead produces the reverse of that sequence (see the counterexample). -/
theorem c6_backward_is_forward_on_reversed (be : Backend) (cell : ConvLSTMCell)
    (ms : ℕ → StepMasks) (x : Tensor5) (s : Tensor4 × Tensor4) :
    loopOver be cell ms x ((List.range x.time).reverse) s
      = loopOver be cell ms (timeReverse x) (List.range (timeReverse x).time) s := by
  rw [loopOver_eq_runDirection, loopOver_eq_runDirection]
  have ht : (timeReverse x).time = x.time := rfl
  rw [ht]
  have hmap : (List.range x.time).map (slice (timeReverse x))
      = ((List.range x.time).reverse).map (slice x) := by
    rw [range_reverse_map]
    rw [List.map_map]
    rfl
  rw [hmap]

/-- Concrete 5-d input: batch 1, two timesteps, one 1x1 channel, all
zeros. -/
def inp5 : Tensor5 := ⟨1, 2, 1, 1, 1, fun _ _ _ _ _ => 0⟩

/-- C6 counterexample: for the two-step run of `cellNoDrop` on `inp5`, the
backward outputs re-reversed into time-increasing order differ at time 0
from the forward outputs over the time-reversed input (the hidden values
are 24 versus 8): the two sequences are reverses of each other, not
equal. -/
theorem c6_counterexample :
    (((loopOver beId cellNoDrop (fun _ => msAll) inp5
          ((List.range inp5.time).reverse) (zeros4, zeros4)).1.reverse.getD 0 zero4).data
        0 0 0 0)
      ≠ (((loopOver beId cellNoDrop (fun _ => msAll) (timeReverse inp5)
          (List.range (timeReverse inp5).time) (zeros4, zeros4)).1.getD 0 zero4).data
        0 0 0 0) := by
  have e1 : (List.range inp5.time).reverse = [1, 0] := rfl
  have e2 : List.range (timeReverse inp5).time = [0, 1] := rfl
  rw [e1, e2]
  norm_num [loopOver, ConvLSTMCell.forward, hNext, cNext, oGate, fGate, iGate, gCand,
    x_i, x_f, x_c, x_o, h_i, h_f, h_c, h_o, c_i, c_f, c_o,
    xDrop, hDrop, cDrop, applyDropout, bnX, lnX, lnH,
    ConvLSTMCell.convInput, ConvLSTMCell.rnnConv, conv2d, sumRange_one, padAt,
    cellNoDrop, cellC1, beId, msAll, maskT, zeros4, zero4, inp5, timeReverse, slice,
    zeroW, oneB, tmap]

/-- C10: in a bidirectional run both directions are driven by the very
same cell (`self.cell_list`, a single `ConvLSTMCell`): the forward
terminal state is the forward recurrence `runDirection` of that cell over
the time slices, and the backward terminal state is the same
`runDirection` of the same cell over the reversed slices (with the
backward entropy draws), from an identically-initialized zero state. -/
theorem c10_single_cell_both_directions (be : Backend) (m : ConvLSTM)
    (entropy : ℕ → StepMasks) (input_tensor : Tensor5)
    (hbi : m.bidirectional = true) :
    (ConvLSTM.forwardCore be m entropy input_tensor).2.1
        = (runDirection be m.cell_list entropy (seqSlices (normalizedInput m input_tensor))
            (m.cell_list.init_hidden (normalizedInput m input_tensor).batch
              (normalizedInput m input_tensor).height
              (normalizedInput m input_tensor).width)).2
      ∧ (ConvLSTM.forwardCore be m entropy input_tensor).2.2
        = some (runDirection be m.cell_list
            (fun n => entropy ((normalizedInput m input_tensor).time + n))
            ((seqSlices (normalizedInput m input_tensor)).reverse)
            (m.cell_list.init_hidden (normalizedInput m input_tensor).batch
              (normalizedInput m input_tensor).height
              (normalizedInput m input_tensor).width)).2 := by
  have hrev : ((List.range (normalizedInput m input_tensor).time).reverse).map
      (slice (normalizedInput m input_tensor))
      = (seqSlices (normalizedInput m input_tensor)).reverse := by
    rw [seqSlices, List.map_reverse]
  constructor
  · simp [ConvLSTM.forwardCore, hbi, loopOver_eq_runDirection, seqSlices]
  · simp [ConvLSTM.forwardCore, hbi, loopOver_eq_runDirection, hrev]

/-- Bidirectional tiny runner over `cellNoDrop`, batch-first. -/
def mBi : ConvLSTM := ⟨true, true, true, cellNoDrop⟩

/-- Witness for C10 at the concrete bidirectional runner `mBi` on `inp5`. -/
theorem c10_witness :
    mBi.bidirectional = true
      ∧ (ConvLSTM.forwardCore beId mBi (fun _ => msAll) inp5).2.2
        = some (runDirection beId mBi.cell_list
            (fun n => (fun _ => msAll) ((normalizedInput mBi inp5).time + n))
            ((seqSlices (normalizedInput mBi inp5)).reverse)
            (mBi.cell_list.init_hidden (normalizedInput mBi inp5).batch
              (normalizedInput mBi inp5).height
              (normalizedInput mBi inp5).width)).2 :=
  ⟨rfl, (c10_single_cell_both_directions beId mBi (fun _ => msAll) inp5 rfl).2⟩

/-! ## C8: output shapes of the runner -/

/-- A backend normalization primitive is shape-preserving (both torch
normalization modules have this known shape semantics). -/
structure ShapePreserving (f : Tensor4 → Tensor4) : Prop where
  batch : ∀ x, (f x).batch = x.batch
  channels : ∀ x, (f x).channels = x.channels
  height : ∀ x, (f x).height = x.height
  width : ∀ x, (f x).width = x.width

@[simp]
theorem stackTime_batch (l : List Tensor4) : (stackTime l).batch = (l.headD zero4).batch := rfl

@[simp]
theorem stackTime_time (l : List Tensor4) : (stackTime l).time = l.length := rfl

@[simp]
theorem stackTime_channels (l : List Tensor4) :
    (stackTime l).channels = (l.headD zero4).channels := rfl

@[simp]
theorem stackTime_height (l : List Tensor4) : (stackTime l).height = (l.headD zero4).height := rfl

@[simp]
theorem stackTime_width (l : List Tensor4) : (stackTime l).width = (l.headD zero4).width := rfl

@[simp]
theorem catChannels_batch (a b : Tensor5) : (catChannels a b).batch = a.batch := rfl

@[simp]
theorem catChannels_time (a b : Tensor5) : (catChannels a b).time = a.time := rfl

@[simp]
theorem catChannels_channels (a b : Tensor5) :
    (catChannels a b).channels = a.channels + b.channels := rfl

@[simp]
theorem catChannels_height (a b : Tensor5) : (catChannels a b).height = a.height := rfl

@[simp]
theorem catChannels_width (a b : Tensor5) : (catChannels a b).width = a.width := rfl

@[simp]
theorem lastTimeSlice_batch (x : Tensor5) : (lastTimeSlice x).batch = x.batch := rfl

@[simp]
theorem lastTimeSlice_time (x : Tensor5) : (lastTimeSlice x).time = 1 := rfl

@[simp]
theorem lastTimeSlice_channels (x : Tensor5) : (lastTimeSlice x).channels = x.channels := rfl

@[simp]
theorem lastTimeSlice_height (x : Tensor5) : (lastTimeSlice x).height = x.height := rfl

@[simp]
theorem lastTimeSlice_width (x : Tensor5) : (lastTimeSlice x).width = x.width := rfl

/-- Dimensions of one step's hidden output: batch of the frame, the
configured hidden channel count, and the input convolution's output
spatial size (requires the normalization primitives to be
shape-preserving). -/
theorem forward_hidden_dims (be : Backend) (cell : ConvLSTMCell) (ms : StepMasks)
    (hbn : ShapePreserving be.batchNorm2d) (hlx : ShapePreserving be.layerNormX)
    (frame : Tensor4) (s : Tensor4 × Tensor4) :
    (ConvLSTMCell.forward be cell ms frame s).1.batch = frame.batch
      ∧ (ConvLSTMCell.forward be cell ms frame s).1.channels = cell.hidden_dim
      ∧ (ConvLSTMCell.forward be cell ms frame s).1.height
        = (frame.height + 2 * cell.ph - cell.kh) / cell.sh + 1
      ∧ (ConvLSTMCell.forward be cell ms frame s).1.width
        = (frame.width + 2 * cell.pw - cell.kw) / cell.sw + 1 := by
  by_cases hp : cell.peephole <;> by_cases hb : cell.batch_norm <;>
    by_cases hl : cell.layer_norm <;>
      · refine ⟨?_, ?_, ?_, ?_⟩ <;>
          simp [ConvLSTMCell.forward, hNext, oGate, x_o, lnX, bnX, hp, hb, hl,
            hbn.batch, hbn.channels, hbn.height, hbn.width,
            hlx.batch, hlx.channels, hlx.height, hlx.width,
            ConvLSTMCell.convInput, conv2d, xDrop, applyDropout]

/-- The loop produces one hidden output per time index. -/
theorem loopOver_length (be : Backend) (cell : ConvLSTMCell) :
    ∀ (ts : List ℕ) (ms : ℕ → StepMasks) (x : Tensor5) (s : Tensor4 × Tensor4),
      (loopOver be cell ms x ts s).1.length = ts.length := by
  intro ts
  induction ts with
  | nil => intro ms x s; rfl
  | cons t ts ih => intro ms x s; simp [loopOver, ih]

/-- Every hidden output collected by the loop has the per-step output
dimensions (all time slices of `x` share one shape). -/
theorem loopOver_dims (be : Backend) (cell : ConvLSTMCell)
    (hbn : ShapePreserving be.batchNorm2d) (hlx : ShapePreserving be.layerNormX) :
    ∀ (ts : List ℕ) (ms : ℕ → StepMasks) (x : Tensor5) (s : Tensor4 × Tensor4)
      (o : Tensor4), o ∈ (loopOver be cell ms x ts s).1 →
      o.batch = x.batch ∧ o.channels = cell.hidden_dim
        ∧ o.height = (x.height + 2 * cell.ph - cell.kh) / cell.sh + 1
        ∧ o.width = (x.width + 2 * cell.pw - cell.kw) / cell.sw + 1 := by
  intro ts
  induction ts with
  | nil => intro ms x s o ho; simp [loopOver] at ho
  | cons t ts ih =>
    intro ms x s o ho
    simp only [loopOver, List.mem_cons] at ho
    rcases ho with rfl | hmem
    · have h := forward_hidden_dims be cell (ms 0) hbn hlx (slice x t) s
      simpa [slice] using h
    · exact ih _ _ _ o hmem

/-- The default-valued head of a nonempty list is a member. -/
theorem headD_mem {α : Type} (l : List α) (d : α) (h : l ≠ []) : l.headD d ∈ l := by
  cases l with
  | nil => exact absurd rfl h
  | cons a as => simp

/-- The default-valued last element of a nonempty list is a member. -/
theorem getLastD_mem {α : Type} : ∀ (l : List α) (d : α), l ≠ [] → l.getLast?.getD d ∈ l := by
  intro l d h
  induction l with
  | nil => contradiction
  | cons a as ih =>
    cases as with
    | nil => simp
    | cons b bs =>
      have h2 : (b :: bs) ≠ [] := by simp
      simp only [List.getLast?_cons_cons]
      exact List.mem_cons_of_mem a (ih h2)

/-- C8: shape of the runner output.  Unidirectional: `(B, T or 1, Chid,
Hc, Wc)` with `Hc, Wc` the input convolution's output spatial size and the
time axis kept (length 1) when `return_sequence` is off; bidirectional:
the channel axis has size `2 * Chid`. -/
theorem c8_output_shape (be : Backend) (m : ConvLSTM) (entropy : ℕ → StepMasks)
    (input_tensor : Tensor5)
    (hbn : ShapePreserving be.batchNorm2d) (hlx : ShapePreserving be.layerNormX)
    (hT : 1 ≤ (normalizedInput m input_tensor).time) :
    (m.bidirectional = false →
      (ConvLSTM.forwardCore be m entropy input_tensor).1.batch
          = (normalizedInput m input_tensor).batch
        ∧ (ConvLSTM.forwardCore be m entropy input_tensor).1.time
          = (if m.return_sequence then (normalizedInput m input_tensor).time else 1)
        ∧ (ConvLSTM.forwardCore be m entropy input_tensor).1.channels
          = m.cell_list.hidden_dim
        ∧ (ConvLSTM.forwardCore be m entropy input_tensor).1.height
          = ((normalizedInput m input_tensor).height + 2 * m.cell_list.ph - m.cell_list.kh)
              / m.cell_list.sh + 1
        ∧ (ConvLSTM.forwardCore be m entropy input_tensor).1.width
          = ((normalizedInput m input_tensor).width + 2 * m.cell_list.pw - m.cell_list.kw)
              / m.cell_list.sw + 1)
      ∧ (m.bidirectional = true →
        (ConvLSTM.forwardCore be m entropy input_tensor).1.channels
            = 2 * m.cell_list.hidden_dim
          ∧ (ConvLSTM.forwardCore be m entropy input_tensor).1.time
            = (if m.return_sequence then (normalizedInput m input_tensor).time else 1)) := by
  have hlenF : (loopOver be m.cell_list entropy (normalizedInput m input_tensor)
      (List.range (normalizedInput m input_tensor).time)
      (m.cell_list.init_hidden (normalizedInput m input_tensor).batch
        (normalizedInput m input_tensor).height
        (normalizedInput m input_tensor).width)).1.length
      = (normalizedInput m input_tensor).time := by
    rw [loopOver_length]
    exact List.length_range _
  have hneF : (loopOver be m.cell_list entropy (normalizedInput m input_tensor)
      (List.range (normalizedInput m input_tensor).time)
      (m.cell_list.init_hidden (normalizedInput m input_tensor).batch
        (normalizedInput m input_tensor).height
        (normalizedInput m input_tensor).width)).1 ≠ [] := by
    intro h
    rw [h] at hlenF
    simp at hlenF
    omega
  have hheadF := loopOver_dims be m.cell_list hbn hlx _ entropy
    (normalizedInput m input_tensor)
    (m.cell_list.init_hidden (normalizedInput m input_tensor).batch
      (normalizedInput m input_tensor).height
      (normalizedInput m input_tensor).width) _
    (headD_mem _ zero4 hneF)
  have hlenB : (loopOver be m.cell_list
      (fun n => entropy ((normalizedInput m input_tensor).time + n))
      (normalizedInput m input_tensor)
      ((List.range (normalizedInput m input_tensor).time).reverse)
      (m.cell_list.init_hidden (normalizedInput m input_tensor).batch
        (normalizedInput m input_tensor).height
        (normalizedInput m input_tensor).width)).1.length
      = (normalizedInput m input_tensor).time := by
    rw [loopOver_length]
    simp
  have hneB : (loopOver be m.cell_list
      (fun n => entropy ((normalizedInput m input_tensor).time + n))
      (normalizedInput m input_tensor)
      ((List.range (normalizedInput m input_tensor).time).reverse)
      (m.cell_list.init_hidden (normalizedInput m input_tensor).batch
        (normalizedInput m input_tensor).height
        (normalizedInput m input_tensor).width)).1 ≠ [] := by
    intro h
    rw [h] at hlenB
    simp at hlenB
    omega
  have hheadB := loopOver_dims be m.cell_list hbn hlx _
    (fun n => entropy ((normalizedInput m input_tensor).time + n))
    (normalizedInput m input_tensor)
    (m.cell_list.init_hidden (normalizedInput m input_tensor).batch
      (normalizedInput m input_tensor).height
      (normalizedInput m input_tensor).width) _
    (getLastD_mem _ zero4 hneB)
  simp only [List.headD_eq_head?] at hheadF
  constructor
  · intro hbi
    by_cases hrs : m.return_sequence <;>
      simp [ConvLSTM.forwardCore, hbi, hrs, hlenF,
        hheadF.1, hheadF.2.1, hheadF.2.2.1, hheadF.2.2.2]
  · intro hbi
    by_cases hrs : m.return_sequence <;>
      simp [ConvLSTM.forwardCore, hbi, hrs, hlenF,
        hheadF.1, hheadF.2.1, hheadF.2.2.1, hheadF.2.2.2,
        hheadB.1, hheadB.2.1, hheadB.2.2.1, hheadB.2.2.2, two_mul]

/-- Unidirectional tiny runner over `cellNoDrop`, batch-first, returning
the full sequence. -/
def mUni : ConvLSTM := ⟨true, true, false, cellNoDrop⟩

/-- Witness for C8: on the two-step input `inp5`, the unidirectional
runner's output has `hidden_dim` channels and time axis 2, and the
bidirectional runner's output has `2 * hidden_dim` channels. -/
theorem c8_witness :
    1 ≤ (normalizedInput mUni inp5).time
      ∧ (ConvLSTM.forwardCore beId mUni (fun _ => msAll) inp5).1.channels
        = mUni.cell_list.hidden_dim
      ∧ (ConvLSTM.forwardCore beId mUni (fun _ => msAll) inp5).1.time
        = (if mUni.return_sequence then (normalizedInput mUni inp5).time else 1)
      ∧ (ConvLSTM.forwardCore beId mBi (fun _ => msAll) inp5).1.channels
        = 2 * mBi.cell_list.hidden_dim := by
  have hbn : ShapePreserving beId.batchNorm2d :=
    ⟨fun x => rfl, fun x => rfl, fun x => rfl, fun x => rfl⟩
  have hlx : ShapePreserving beId.layerNormX :=
    ⟨fun x => rfl, fun x => rfl, fun x => rfl, fun x => rfl⟩
  have h1 := c8_output_shape beId mUni (fun _ => msAll) inp5 hbn hlx (by decide)
  have h2 := c8_output_shape beId mBi (fun _ => msAll) inp5 hbn hlx (by decide)
  exact ⟨by decide, (h1.1 rfl).2.2.1, (h1.1 rfl).2.1, (h2.2 rfl).1⟩

end Convlstm
